import Mathlib

/-!
# Honey: the payload-mapper script

`src/script.js` is the body of a transformation function with the parameters
`msg`, `metadata` and `msgType`:

    var newPayload = {
        machine_id: msg.machine_id,
        total_Count: msg.total_Count,
        batch: msg.batch,
        Flavor: msg.Flavor,
        Timestamp: new Date().toISOString()
    };
    return {msg: newPayload, metadata: metadata, msgType: msgType};

The development has three layers.

* The ECMAScript time-value arithmetic and `Date.prototype.toISOString`
  (ECMA-262, sections "Time Values and Time Range" up to "Date Time String
  Format"), on which line 13 of the script relies.
* A small object heap: language values, objects with own data properties,
  allocation, property reads and property definition.
* The script itself, as a state-passing function over the heap that follows
  the evaluation order of the two statements.
-/

namespace Honey

/-! ## Time values (ECMA-262, "Time-related Constants" and the abstract operations on them) -/

def HoursPerDay : Int := 24
def MinutesPerHour : Int := 60
def SecondsPerMinute : Int := 60
def msPerSecond : Int := 1000
def msPerMinute : Int := 60000
def msPerHour : Int := 3600000
def msPerDay : Int := 86400000

/-- Day number of a time value: `floor(t / msPerDay)`. -/
def Day (t : Int) : Int := t / msPerDay

/-- Milliseconds since the start of the day: `t modulo msPerDay`. -/
def TimeWithinDay (t : Int) : Int := t % msPerDay

/-- Number of days of year `y` in the proleptic Gregorian calendar. -/
def DaysInYear (y : Int) : Int :=
  if y % 4 ≠ 0 then 365
  else if y % 100 ≠ 0 then 366
  else if y % 400 ≠ 0 then 365
  else 366

/-- Day number of the first day of year `y`. -/
def DayFromYear (y : Int) : Int :=
  365 * (y - 1970) + (y - 1969) / 4 - (y - 1901) / 100 + (y - 1601) / 400

/-- Time value of the start of year `y`. -/
def TimeFromYear (y : Int) : Int := msPerDay * DayFromYear y

/-- Year of a time value.  ECMA-262 defines it as the largest integer `y` with
`TimeFromYear y ≤ t`; here it is computed from the mean year length of the
400-year cycle (146097 days) and corrected by at most one year.  That the
result is the year ECMA-262 asks for is `YearFromTime_spec` and
`YearFromTime_largest` below. -/
def YearFromTime (t : Int) : Int :=
  let d := Day t
  let y := 1970 + (d * 400) / 146097
  if d < DayFromYear y then y - 1
  else if DayFromYear (y + 1) ≤ d then y + 1
  else y

/-- One in a leap year, zero otherwise. -/
def InLeapYear (t : Int) : Int :=
  if DaysInYear (YearFromTime t) = 366 then 1 else 0

def DayWithinYear (t : Int) : Int := Day t - DayFromYear (YearFromTime t)

/-- Month number, 0 (January) to 11 (December). -/
def MonthFromTime (t : Int) : Int :=
  if DayWithinYear t < 31 then 0
  else if DayWithinYear t < 59 + InLeapYear t then 1
  else if DayWithinYear t < 90 + InLeapYear t then 2
  else if DayWithinYear t < 120 + InLeapYear t then 3
  else if DayWithinYear t < 151 + InLeapYear t then 4
  else if DayWithinYear t < 181 + InLeapYear t then 5
  else if DayWithinYear t < 212 + InLeapYear t then 6
  else if DayWithinYear t < 243 + InLeapYear t then 7
  else if DayWithinYear t < 273 + InLeapYear t then 8
  else if DayWithinYear t < 304 + InLeapYear t then 9
  else if DayWithinYear t < 334 + InLeapYear t then 10
  else 11

/-- Day of the month, 1 to 31. -/
def DateFromTime (t : Int) : Int :=
  if MonthFromTime t = 0 then DayWithinYear t + 1
  else if MonthFromTime t = 1 then DayWithinYear t - 30
  else if MonthFromTime t = 2 then DayWithinYear t - 58 - InLeapYear t
  else if MonthFromTime t = 3 then DayWithinYear t - 89 - InLeapYear t
  else if MonthFromTime t = 4 then DayWithinYear t - 119 - InLeapYear t
  else if MonthFromTime t = 5 then DayWithinYear t - 150 - InLeapYear t
  else if MonthFromTime t = 6 then DayWithinYear t - 180 - InLeapYear t
  else if MonthFromTime t = 7 then DayWithinYear t - 211 - InLeapYear t
  else if MonthFromTime t = 8 then DayWithinYear t - 242 - InLeapYear t
  else if MonthFromTime t = 9 then DayWithinYear t - 272 - InLeapYear t
  else if MonthFromTime t = 10 then DayWithinYear t - 303 - InLeapYear t
  else DayWithinYear t - 333 - InLeapYear t

def HourFromTime (t : Int) : Int := (t / msPerHour) % HoursPerDay
def MinFromTime (t : Int) : Int := (t / msPerMinute) % MinutesPerHour
def SecFromTime (t : Int) : Int := (t / msPerSecond) % SecondsPerMinute
def msFromTime (t : Int) : Int := t % msPerSecond

/-- The largest and smallest time values a Date object can hold. -/
def maxTimeValue : Int := 8640000000000000

/-- A clock reading that a Date object can hold. -/
def IsTimeValue (t : Int) : Prop := -maxTimeValue ≤ t ∧ t ≤ maxTimeValue

instance (t : Int) : Decidable (IsTimeValue t) :=
  inferInstanceAs (Decidable (-maxTimeValue ≤ t ∧ t ≤ maxTimeValue))

/-! ## The Date Time String Format -/

/-- The `w` lowest decimal digits of `n`, most significant first. -/
def digits : Nat → Nat → List Char
  | 0, _ => []
  | w + 1, n => digits w (n / 10) ++ [Nat.digitChar (n % 10)]

/-- The year field: four digits for the years 0 to 9999, otherwise the
expanded form, a sign followed by six digits. -/
def yearString (y : Int) : List Char :=
  if 0 ≤ y ∧ y ≤ 9999 then digits 4 y.toNat
  else (if y < 0 then '-' else '+') :: digits 6 y.natAbs

/-- The characters of `Date.prototype.toISOString` for time value `t`:
`YYYY-MM-DDTHH:mm:ss.sssZ`. -/
def isoChars (t : Int) : List Char :=
  yearString (YearFromTime t) ++ '-' ::
  digits 2 (MonthFromTime t + 1).toNat ++ '-' ::
  digits 2 (DateFromTime t).toNat ++ 'T' ::
  digits 2 (HourFromTime t).toNat ++ ':' ::
  digits 2 (MinFromTime t).toNat ++ ':' ::
  digits 2 (SecFromTime t).toNat ++ '.' ::
  digits 3 (msFromTime t).toNat ++ ['Z']

/-- The string `Date.prototype.toISOString` returns for a Date object whose
time value is `t`. -/
def toISOString (t : Int) : String := String.mk (isoChars t)

/-! ## Values and the object heap -/

/-- A Number value, carried as the bit pattern of its IEEE-754 binary64
representation.  The script performs no arithmetic on numbers; it only copies
them. -/
structure JSNumber where
  bits : Nat
deriving DecidableEq, Repr

abbrev Addr := Nat

/-- An ECMAScript language value.  An object value is a reference into the
heap. -/
inductive JSValue where
  | undefined
  | null
  | boolean (b : Bool)
  | number (n : JSNumber)
  | string (s : String)
  | object (a : Addr)
deriving DecidableEq, Repr

/-- An object: its own data properties in creation order, and the
`[[DateValue]]` internal slot when it is a Date object.  Messages are data
(parsed JSON), so properties are data properties; accessor properties and
proxies are outside the model, and so are the properties inherited from the
standard prototypes, none of which has one of the names the script reads. -/
structure JSObject where
  props : List (String × JSValue)
  dateValue : Option Int
deriving DecidableEq, Repr

/-- The heap: the object at address `a` is the `a`-th entry. -/
abbrev Heap := List JSObject

/-- The errors the script can throw.  `toISOString` throws a RangeError only for
a Date whose time value is not finite, and `new Date()` always stores the
finite current time, so a TypeError is the only one that arises. -/
inductive JSError where
  | TypeError
deriving DecidableEq, Repr

/-- The object created by `{}` before its properties are defined. -/
def emptyObject : JSObject := { props := [], dateValue := none }

/-- Allocate a new object; its address is the first unused one. -/
def alloc (h : Heap) (o : JSObject) : Heap × Addr := (h ++ [o], h.length)

/-- Value of the own property `key`, if there is one. -/
def lookup (ps : List (String × JSValue)) (key : String) : Option JSValue :=
  match ps with
  | [] => none
  | (k, v) :: rest => if k = key then some v else lookup rest key

/-- Names of the own properties of an object. -/
def keys (o : JSObject) : List String := o.props.map Prod.fst

/-- Define or overwrite a property in a property list. -/
def setProp (ps : List (String × JSValue)) (key : String) (v : JSValue) :
    List (String × JSValue) :=
  match ps with
  | [] => [(key, v)]
  | (k, w) :: rest => if k = key then (k, v) :: rest else (k, w) :: setProp rest key v

/-- CreateDataProperty on the object at address `a`, as performed for each
property definition of an object literal. -/
def createDataProperty (h : Heap) (a : Addr) (key : String) (v : JSValue) : Heap :=
  h.modify (fun o => { o with props := setProp o.props key v }) a

/-- The member expression `v.key` read as a value.  Reading a property of
`undefined` or `null` throws a TypeError; a primitive has none of the
properties the script reads; an object yields its own property or
`undefined`. -/
def getV (h : Heap) (v : JSValue) (key : String) : Except JSError JSValue :=
  match v with
  | .undefined => .error .TypeError
  | .null => .error .TypeError
  | .boolean _ => .ok .undefined
  | .number _ => .ok .undefined
  | .string _ => .ok .undefined
  | .object a =>
    match h[a]? with
    | some o => .ok ((lookup o.props key).getD .undefined)
    | none => .ok .undefined

/-- The expression `new Date()`: a new Date object whose time value is the
current clock reading. -/
def newDate (now : Int) (h : Heap) : Heap × Addr :=
  alloc h { props := [], dateValue := some now }

/-- The call `d.toISOString()`: a TypeError unless `d` is a Date object,
otherwise the ISO rendering of its time value. -/
def callToISOString (h : Heap) (d : JSValue) : Except JSError String :=
  match d with
  | .object a =>
    match h[a]? with
    | some o =>
      match o.dateValue with
      | some t => .ok (toISOString t)
      | none => .error .TypeError
    | none => .error .TypeError
  | _ => .error .TypeError

/-! ## The script -/

/-- The object literal of lines 4 to 14: the object is created, then each
property value is evaluated and defined, in source order.  Returns the heap
and the address bound to `newPayload`. -/
def newPayload (now : Int) (msg : JSValue) (h : Heap) : Except JSError (Heap × Addr) := do
  let (h, p) := alloc h emptyObject
  let v ← getV h msg "machine_id"
  let h := createDataProperty h p "machine_id" v
  let v ← getV h msg "total_Count"
  let h := createDataProperty h p "total_Count" v
  let v ← getV h msg "batch"
  let h := createDataProperty h p "batch" v
  let v ← getV h msg "Flavor"
  let h := createDataProperty h p "Flavor" v
  let (h, d) := newDate now h
  let ts ← callToISOString h (.object d)
  let h := createDataProperty h p "Timestamp" (.string ts)
  return (h, p)

/-- The whole script: `now` is the clock reading taken by `new Date()`, `h`
the heap at the call.  The result is the returned wrapper object and the heap
after the call, or the error thrown. -/
def script (now : Int) (msg metadata msgType : JSValue) (h : Heap) :
    Except JSError (JSValue × Heap) := do
  let (h, p) ← newPayload now msg h
  let (h, w) := alloc h emptyObject
  let h := createDataProperty h w "msg" (.object p)
  let h := createDataProperty h w "metadata" metadata
  let h := createDataProperty h w "msgType" msgType
  return (.object w, h)

/-- The property `key` of the object `v` refers to in heap `h`, if `v` is an
object of `h` that has the property. -/
def field (h : Heap) (v : JSValue) (key : String) : Option JSValue :=
  match v with
  | .object a => (h[a]?).bind (fun o => lookup o.props key)
  | _ => none

/-- The property names of the object `v` refers to in heap `h`. -/
def fieldNames (h : Heap) (v : JSValue) : Option (List String) :=
  match v with
  | .object a => (h[a]?).map keys
  | _ => none

/-! ## What the script reads and builds -/

/-- The value the script reads for `msg.key` in heap `h`. -/
def readV (h : Heap) (msg : JSValue) (key : String) : JSValue :=
  match getV h msg key with
  | .ok v => v
  | .error _ => .undefined

/-- An object value refers to an object of the heap. -/
def ValidIn (h : Heap) (v : JSValue) : Prop := ∀ a, v = .object a → a < h.length

/-- The record bound to `newPayload` once its five properties are defined. -/
def payloadRecord (v1 v2 v3 v4 : JSValue) (now : Int) : JSObject :=
  { props := [("machine_id", v1), ("total_Count", v2), ("batch", v3), ("Flavor", v4),
      ("Timestamp", .string (toISOString now))],
    dateValue := none }

/-- The Date object left on the heap by `new Date()`. -/
def dateObject (now : Int) : JSObject := { props := [], dateValue := some now }

/-- The wrapper object of the `return` statement. -/
def wrapperObject (p : Addr) (metadata msgType : JSValue) : JSObject :=
  { props := [("msg", .object p), ("metadata", metadata), ("msgType", msgType)],
    dateValue := none }

/-- The four fields the script copies. -/
def copiedFields : List String := ["machine_id", "total_Count", "batch", "Flavor"]

/-- A primitive value other than `undefined` and `null`. -/
def isPrimitive (v : JSValue) : Bool :=
  match v with
  | .boolean _ => true
  | .number _ => true
  | .string _ => true
  | _ => false

/-- The record found under key `msg` of the returned wrapper. -/
def outputRecord (r : Except JSError (JSValue × Heap)) : Option JSValue :=
  match r with
  | .ok (w, h) => field h w "msg"
  | .error _ => none

/-- The property `key` of the record found under key `msg` of the returned
wrapper. -/
def outputField (r : Except JSError (JSValue × Heap)) (key : String) : Option JSValue :=
  match r with
  | .ok (w, h) => (field h w "msg").bind (fun p => field h p key)
  | .error _ => none

/-! ## Reading an ISO-8601 date-time -/

/-- Number of days of month `m` (1 to 12) of year `y`. -/
def daysInMonth (y : Int) (m : Nat) : Nat :=
  if m = 2 then (if DaysInYear y = 366 then 29 else 28)
  else if m = 4 ∨ m = 6 ∨ m = 9 ∨ m = 11 then 30
  else 31

/-- Number of days of year `y` that precede its month `m` (1 to 12). -/
def daysBeforeMonth (y : Int) (m : Nat) : Nat :=
  ((List.range (m - 1)).map (fun k => daysInMonth y (k + 1))).sum

/-- Value of a decimal digit character. -/
def digitValue (c : Char) : Option Nat :=
  if '0' ≤ c ∧ c ≤ '9' then some (c.toNat - '0'.toNat) else none

/-- Value of a string of decimal digits; `none` if a character is not a
digit. -/
def decimalValue (cs : List Char) : Option Nat :=
  cs.foldl (fun acc c => acc.bind (fun n => (digitValue c).map (fun d => 10 * n + d))) (some 0)

/-- The calendar date and time of day written in an ISO-8601 date-time. -/
structure ISOFields where
  year : Int
  month : Nat
  day : Nat
  hour : Nat
  minute : Nat
  second : Nat
  millisecond : Nat
deriving DecidableEq, Repr

/-- Read `-MM-DDTHH:mm:ss.sssZ`, the twenty characters that follow the year. -/
def readTail (year : Int) (cs : List Char) : Option ISOFields :=
  match cs with
  | [c1, m1, m2, c2, d1, d2, c3, h1, h2, c4, n1, n2, c5, s1, s2, c6, f1, f2, f3, c7] =>
    if c1 = '-' ∧ c2 = '-' ∧ c3 = 'T' ∧ c4 = ':' ∧ c5 = ':' ∧ c6 = '.' ∧ c7 = 'Z' then
      (decimalValue [m1, m2]).bind fun month =>
      (decimalValue [d1, d2]).bind fun day =>
      (decimalValue [h1, h2]).bind fun hour =>
      (decimalValue [n1, n2]).bind fun minute =>
      (decimalValue [s1, s2]).bind fun second =>
      (decimalValue [f1, f2, f3]).bind fun millisecond =>
      some { year := year, month := month, day := day, hour := hour, minute := minute,
             second := second, millisecond := millisecond }
    else none
  | _ => none

/-- Read a string of the shape `YYYY-MM-DDTHH:mm:ss.sssZ`, or of the expanded
shape `+YYYYYY-MM-DDTHH:mm:ss.sssZ` or `-YYYYYY-MM-DDTHH:mm:ss.sssZ`, into its
fields.  Any other string is rejected. -/
def readISO (s : String) : Option ISOFields :=
  match s.data with
  | [] => none
  | c :: cs =>
    if c = '+' then
      (decimalValue (cs.take 6)).bind fun y => readTail (y : Int) (cs.drop 6)
    else if c = '-' then
      (decimalValue (cs.take 6)).bind fun y => readTail (-(y : Int)) (cs.drop 6)
    else
      (decimalValue ((c :: cs).take 4)).bind fun y => readTail (y : Int) ((c :: cs).drop 4)

/-- The instant an ISO-8601 UTC date-time denotes, in milliseconds since the
epoch: the days up to the start of the year (`DayFromYear`, which is zero at
1970 and grows by the length of each year, see `DayFromYear_epoch` and
`DayFromYear_succ`), the days of the months before, the days of the month
before, and the time of day. -/
def instantOf (f : ISOFields) : Int :=
  (DayFromYear f.year + daysBeforeMonth f.year f.month + ((f.day : Int) - 1)) * msPerDay
    + f.hour * msPerHour + f.minute * msPerMinute + f.second * msPerSecond + f.millisecond

/-- The calendar fields of a time value, as the ECMAScript operations compute
them. -/
def fieldsOf (t : Int) : ISOFields :=
  { year := YearFromTime t
    month := (MonthFromTime t + 1).toNat
    day := (DateFromTime t).toNat
    hour := (HourFromTime t).toNat
    minute := (MinFromTime t).toNat
    second := (SecFromTime t).toNat
    millisecond := (msFromTime t).toNat }

/-- The twenty characters after the year, for given fields. -/
def tailChars (mo d h mi s ms : Nat) : List Char :=
  '-' :: digits 2 mo ++ '-' :: digits 2 d ++ 'T' :: digits 2 h ++ ':' :: digits 2 mi ++ ':' ::
    digits 2 s ++ '.' :: digits 3 ms ++ ['Z']

/-- Years 0000 to 9999: the years rendered with four digits. -/
def InFourDigitYears (t : Int) : Prop := 0 ≤ YearFromTime t ∧ YearFromTime t ≤ 9999

instance (t : Int) : Decidable (InFourDigitYears t) :=
  inferInstanceAs (Decidable (0 ≤ YearFromTime t ∧ YearFromTime t ≤ 9999))

/-! ## Example inputs -/

/-- The message of the example scenario: machine_id "M-12", total_Count 42
(the double with bit pattern 0x4045000000000000), batch "B7", Flavor
"vanilla". -/
def exampleMsg : JSObject :=
  { props := [("machine_id", .string "M-12"), ("total_Count", .number ⟨0x4045000000000000⟩),
      ("batch", .string "B7"), ("Flavor", .string "vanilla")],
    dateValue := none }

/-- The metadata of the example scenario: source "mqtt". -/
def exampleMetadata : JSObject :=
  { props := [("source", .string "mqtt")], dateValue := none }

/-- The heap of the example scenario: the message at address 0, the metadata
at address 1. -/
def exampleHeap : Heap := [exampleMsg, exampleMetadata]

/-- A heap whose message, at address 0, lacks batch and Flavor, holds its
total_Count as the string "42", and carries a Timestamp and a timestamp of its
own and one more field. -/
def sparseHeap : Heap :=
  [{ props := [("machine_id", .string "M-12"), ("total_Count", .string "42"),
        ("Timestamp", .string "1999-01-01T00:00:00.000Z"),
        ("timestamp", .number ⟨0⟩), ("extra", .boolean true)],
     dateValue := none }]

/-! ## The calendar arithmetic -/

theorem DayFromYear_epoch : DayFromYear 1970 = 0 := by decide

theorem DayFromYear_succ (y : Int) : DayFromYear (y + 1) = DayFromYear y + DaysInYear y := by
  unfold DayFromYear DaysInYear
  split_ifs <;> omega

theorem YearFromTime_days (t : Int) :
    DayFromYear (YearFromTime t) ≤ Day t ∧ Day t < DayFromYear (YearFromTime t + 1) := by
  unfold YearFromTime
  simp only
  split_ifs with h1 h2
  · constructor
    · unfold DayFromYear; omega
    · simpa using h1
  · constructor
    · exact h2
    · unfold DayFromYear; omega
  · constructor
    · omega
    · omega

theorem YearFromTime_spec (t : Int) :
    TimeFromYear (YearFromTime t) ≤ t ∧ t < TimeFromYear (YearFromTime t + 1) := by
  have h := YearFromTime_days t
  unfold TimeFromYear Day msPerDay at *
  omega

theorem DayFromYear_mono (y z : Int) (h : y ≤ z) : DayFromYear y ≤ DayFromYear z := by
  unfold DayFromYear; omega

theorem YearFromTime_largest (t y : Int) (h : TimeFromYear y ≤ t) : y ≤ YearFromTime t := by
  by_contra hc
  have h1 : YearFromTime t + 1 ≤ y := by omega
  have h2 := DayFromYear_mono _ _ h1
  have h3 := (YearFromTime_spec t).2
  unfold TimeFromYear msPerDay at *
  omega

theorem YearFromTime_range (t : Int) (ht : IsTimeValue t) :
    -271821 ≤ YearFromTime t ∧ YearFromTime t ≤ 275760 := by
  have h := YearFromTime_days t
  unfold IsTimeValue maxTimeValue at ht
  unfold Day msPerDay DayFromYear at h
  omega

theorem DayWithinYear_range (t : Int) :
    0 ≤ DayWithinYear t ∧ DayWithinYear t < DaysInYear (YearFromTime t) := by
  have h := YearFromTime_days t
  rw [DayFromYear_succ] at h
  unfold DayWithinYear
  omega

theorem daysBeforeMonth_values (y : Int) :
    daysBeforeMonth y 1 = 0 ∧
    daysBeforeMonth y 2 = 31 ∧
    daysBeforeMonth y 3 = 31 + daysInMonth y 2 ∧
    daysBeforeMonth y 4 = 62 + daysInMonth y 2 ∧
    daysBeforeMonth y 5 = 92 + daysInMonth y 2 ∧
    daysBeforeMonth y 6 = 123 + daysInMonth y 2 ∧
    daysBeforeMonth y 7 = 153 + daysInMonth y 2 ∧
    daysBeforeMonth y 8 = 184 + daysInMonth y 2 ∧
    daysBeforeMonth y 9 = 215 + daysInMonth y 2 ∧
    daysBeforeMonth y 10 = 245 + daysInMonth y 2 ∧
    daysBeforeMonth y 11 = 276 + daysInMonth y 2 ∧
    daysBeforeMonth y 12 = 306 + daysInMonth y 2 := by
  simp only [daysBeforeMonth, List.range_succ, List.range_zero]
  simp [daysInMonth]
  omega

theorem daysInMonth_values (y : Int) :
    daysInMonth y 1 = 31 ∧ daysInMonth y 3 = 31 ∧ daysInMonth y 4 = 30 ∧
    daysInMonth y 5 = 31 ∧ daysInMonth y 6 = 30 ∧ daysInMonth y 7 = 31 ∧
    daysInMonth y 8 = 31 ∧ daysInMonth y 9 = 30 ∧ daysInMonth y 10 = 31 ∧
    daysInMonth y 11 = 30 ∧ daysInMonth y 12 = 31 := by
  simp [daysInMonth]

theorem InLeapYear_cases (t : Int) :
    (InLeapYear t = 0 ∨ InLeapYear t = 1) ∧
    (daysInMonth (YearFromTime t) 2 : Int) = 28 + InLeapYear t ∧
    DaysInYear (YearFromTime t) = 365 + InLeapYear t := by
  refine ⟨?_, ?_, ?_⟩
  · unfold InLeapYear; split_ifs <;> simp
  · have : daysInMonth (YearFromTime t) 2
        = if DaysInYear (YearFromTime t) = 366 then 29 else 28 := by simp [daysInMonth]
    rw [this]
    unfold InLeapYear; split_ifs <;> simp
  · unfold InLeapYear
    split_ifs with h
    · omega
    · unfold DaysInYear at h ⊢
      split_ifs at h ⊢ <;> simp_all

theorem MonthFromTime_cases (t : Int) :
    (DayWithinYear t < 31 ∧ MonthFromTime t = 0) ∨
    (31 ≤ DayWithinYear t ∧ DayWithinYear t < 59 + InLeapYear t ∧ MonthFromTime t = 1) ∨
    (59 + InLeapYear t ≤ DayWithinYear t ∧ DayWithinYear t < 90 + InLeapYear t ∧
      MonthFromTime t = 2) ∨
    (90 + InLeapYear t ≤ DayWithinYear t ∧ DayWithinYear t < 120 + InLeapYear t ∧
      MonthFromTime t = 3) ∨
    (120 + InLeapYear t ≤ DayWithinYear t ∧ DayWithinYear t < 151 + InLeapYear t ∧
      MonthFromTime t = 4) ∨
    (151 + InLeapYear t ≤ DayWithinYear t ∧ DayWithinYear t < 181 + InLeapYear t ∧
      MonthFromTime t = 5) ∨
    (181 + InLeapYear t ≤ DayWithinYear t ∧ DayWithinYear t < 212 + InLeapYear t ∧
      MonthFromTime t = 6) ∨
    (212 + InLeapYear t ≤ DayWithinYear t ∧ DayWithinYear t < 243 + InLeapYear t ∧
      MonthFromTime t = 7) ∨
    (243 + InLeapYear t ≤ DayWithinYear t ∧ DayWithinYear t < 273 + InLeapYear t ∧
      MonthFromTime t = 8) ∨
    (273 + InLeapYear t ≤ DayWithinYear t ∧ DayWithinYear t < 304 + InLeapYear t ∧
      MonthFromTime t = 9) ∨
    (304 + InLeapYear t ≤ DayWithinYear t ∧ DayWithinYear t < 334 + InLeapYear t ∧
      MonthFromTime t = 10) ∨
    (334 + InLeapYear t ≤ DayWithinYear t ∧ MonthFromTime t = 11) := by
  generalize hm : MonthFromTime t = m
  unfold MonthFromTime at hm
  generalize DayWithinYear t = w at hm ⊢
  generalize InLeapYear t = l at hm ⊢
  by_cases c0 : w < 31
  · rw [if_pos c0] at hm
    exact Or.inl ⟨c0, hm.symm⟩
  rw [if_neg c0] at hm
  by_cases c1 : w < 59 + l
  · rw [if_pos c1] at hm
    exact Or.inr (Or.inl ⟨by omega, c1, hm.symm⟩)
  rw [if_neg c1] at hm
  by_cases c2 : w < 90 + l
  · rw [if_pos c2] at hm
    exact Or.inr (Or.inr (Or.inl ⟨by omega, c2, hm.symm⟩))
  rw [if_neg c2] at hm
  by_cases c3 : w < 120 + l
  · rw [if_pos c3] at hm
    exact Or.inr (Or.inr (Or.inr (Or.inl ⟨by omega, c3, hm.symm⟩)))
  rw [if_neg c3] at hm
  by_cases c4 : w < 151 + l
  · rw [if_pos c4] at hm
    exact Or.inr (Or.inr (Or.inr (Or.inr (Or.inl ⟨by omega, c4, hm.symm⟩))))
  rw [if_neg c4] at hm
  by_cases c5 : w < 181 + l
  · rw [if_pos c5] at hm
    exact Or.inr (Or.inr (Or.inr (Or.inr (Or.inr (Or.inl ⟨by omega, c5, hm.symm⟩)))))
  rw [if_neg c5] at hm
  by_cases c6 : w < 212 + l
  · rw [if_pos c6] at hm
    exact Or.inr (Or.inr (Or.inr (Or.inr (Or.inr (Or.inr (Or.inl ⟨by omega, c6, hm.symm⟩))))))
  rw [if_neg c6] at hm
  by_cases c7 : w < 243 + l
  · rw [if_pos c7] at hm
    exact Or.inr (Or.inr (Or.inr (Or.inr (Or.inr (Or.inr (Or.inr (Or.inl ⟨by omega, c7, hm.symm⟩)))))))
  rw [if_neg c7] at hm
  by_cases c8 : w < 273 + l
  · rw [if_pos c8] at hm
    exact Or.inr (Or.inr (Or.inr (Or.inr (Or.inr (Or.inr (Or.inr (Or.inr (Or.inl ⟨by omega, c8, hm.symm⟩))))))))
  rw [if_neg c8] at hm
  by_cases c9 : w < 304 + l
  · rw [if_pos c9] at hm
    exact Or.inr (Or.inr (Or.inr (Or.inr (Or.inr (Or.inr (Or.inr (Or.inr (Or.inr (Or.inl ⟨by omega, c9, hm.symm⟩)))))))))
  rw [if_neg c9] at hm
  by_cases c10 : w < 334 + l
  · rw [if_pos c10] at hm
    exact Or.inr (Or.inr (Or.inr (Or.inr (Or.inr (Or.inr (Or.inr (Or.inr (Or.inr (Or.inr (Or.inl ⟨by omega, c10, hm.symm⟩))))))))))
  rw [if_neg c10] at hm
  exact Or.inr (Or.inr (Or.inr (Or.inr (Or.inr (Or.inr (Or.inr (Or.inr (Or.inr (Or.inr (Or.inr (⟨by omega, hm.symm⟩)))))))))))

theorem DateFromTime_cases (t : Int) :
    (MonthFromTime t = 0 → DateFromTime t = DayWithinYear t + 1) ∧
    (MonthFromTime t = 1 → DateFromTime t = DayWithinYear t - 30) ∧
    (MonthFromTime t = 2 → DateFromTime t = DayWithinYear t - 58 - InLeapYear t) ∧
    (MonthFromTime t = 3 → DateFromTime t = DayWithinYear t - 89 - InLeapYear t) ∧
    (MonthFromTime t = 4 → DateFromTime t = DayWithinYear t - 119 - InLeapYear t) ∧
    (MonthFromTime t = 5 → DateFromTime t = DayWithinYear t - 150 - InLeapYear t) ∧
    (MonthFromTime t = 6 → DateFromTime t = DayWithinYear t - 180 - InLeapYear t) ∧
    (MonthFromTime t = 7 → DateFromTime t = DayWithinYear t - 211 - InLeapYear t) ∧
    (MonthFromTime t = 8 → DateFromTime t = DayWithinYear t - 242 - InLeapYear t) ∧
    (MonthFromTime t = 9 → DateFromTime t = DayWithinYear t - 272 - InLeapYear t) ∧
    (MonthFromTime t = 10 → DateFromTime t = DayWithinYear t - 303 - InLeapYear t) ∧
    (MonthFromTime t = 11 → DateFromTime t = DayWithinYear t - 333 - InLeapYear t) := by
  generalize hd : DateFromTime t = d
  unfold DateFromTime at hd
  generalize DayWithinYear t = w at hd ⊢
  generalize InLeapYear t = l at hd ⊢
  generalize MonthFromTime t = m at hd ⊢
  omega

theorem date_fields (t : Int) :
    0 ≤ MonthFromTime t ∧ MonthFromTime t ≤ 11 ∧
    1 ≤ DateFromTime t ∧
    DateFromTime t ≤ daysInMonth (YearFromTime t) (MonthFromTime t + 1).toNat ∧
    DayFromYear (YearFromTime t) + daysBeforeMonth (YearFromTime t) (MonthFromTime t + 1).toNat
      + (DateFromTime t - 1) = Day t := by
  have hw := DayWithinYear_range t
  have hd : Day t = DayFromYear (YearFromTime t) + DayWithinYear t := by
    unfold DayWithinYear; omega
  obtain ⟨b1, b2, b3, b4, b5, b6, b7, b8, b9, b10, b11, b12⟩ :=
    daysBeforeMonth_values (YearFromTime t)
  obtain ⟨m1, m3, m4, m5, m6, m7, m8, m9, m10, m11, m12⟩ :=
    daysInMonth_values (YearFromTime t)
  obtain ⟨hl, hf, hy⟩ := InLeapYear_cases t
  have hdt := DateFromTime_cases t
  rw [hd]
  rcases MonthFromTime_cases t with
    ⟨h1, hm⟩ | ⟨h0, h1, hm⟩ | ⟨h0, h1, hm⟩ | ⟨h0, h1, hm⟩ | ⟨h0, h1, hm⟩ | ⟨h0, h1, hm⟩ |
    ⟨h0, h1, hm⟩ | ⟨h0, h1, hm⟩ | ⟨h0, h1, hm⟩ | ⟨h0, h1, hm⟩ | ⟨h0, h1, hm⟩ | ⟨h0, hm⟩ <;>
  · rw [hm] at hdt ⊢
    simp at hdt ⊢
    simp only [b1, b2, b3, b4, b5, b6, b7, b8, b9, b10, b11, b12,
      m1, m3, m4, m5, m6, m7, m8, m9, m10, m11, m12]
    clear b1 b2 b3 b4 b5 b6 b7 b8 b9 b10 b11 b12 m1 m3 m4 m5 m6 m7 m8 m9 m10 m11 m12
    push_cast
    omega

theorem time_fields (t : Int) :
    0 ≤ HourFromTime t ∧ HourFromTime t ≤ 23 ∧
    0 ≤ MinFromTime t ∧ MinFromTime t ≤ 59 ∧
    0 ≤ SecFromTime t ∧ SecFromTime t ≤ 59 ∧
    0 ≤ msFromTime t ∧ msFromTime t ≤ 999 ∧
    Day t * msPerDay + HourFromTime t * msPerHour + MinFromTime t * msPerMinute
      + SecFromTime t * msPerSecond + msFromTime t = t := by
  unfold HourFromTime MinFromTime SecFromTime msFromTime Day msPerDay msPerHour msPerMinute
    msPerSecond HoursPerDay MinutesPerHour SecondsPerMinute
  omega

theorem digitValue_digitChar (d : Nat) (hd : d < 10) : digitValue (Nat.digitChar d) = some d := by
  interval_cases d <;> rfl

theorem decimalValue_snoc (cs : List Char) (c : Char) :
    decimalValue (cs ++ [c])
      = (decimalValue cs).bind (fun n => (digitValue c).map (fun d => 10 * n + d)) := by
  simp [decimalValue, List.foldl_append]

theorem decimalValue_digits (w n : Nat) : decimalValue (digits w n) = some (n % 10 ^ w) := by
  induction w generalizing n with
  | zero => simp [digits, decimalValue, Nat.mod_one]
  | succ w ih =>
    rw [digits, decimalValue_snoc, ih, digitValue_digitChar _ (Nat.mod_lt _ (by decide))]
    simp only [Option.some_bind, Option.map_some', Option.some.injEq]
    rw [pow_succ, Nat.mul_comm (10 ^ w) 10, Nat.mod_mul]
    omega

theorem length_digits (w n : Nat) : (digits w n).length = w := by
  induction w generalizing n with
  | zero => rfl
  | succ w ih => simp [digits, ih]

theorem digits_two (n : Nat) :
    digits 2 n = [Nat.digitChar (n / 10 % 10), Nat.digitChar (n % 10)] := by
  simp [digits]

theorem digits_three (n : Nat) :
    digits 3 n = [Nat.digitChar (n / 10 / 10 % 10), Nat.digitChar (n / 10 % 10),
      Nat.digitChar (n % 10)] := by
  simp [digits]

theorem digits_four (n : Nat) :
    digits 4 n = [Nat.digitChar (n / 10 / 10 / 10 % 10), Nat.digitChar (n / 10 / 10 % 10),
      Nat.digitChar (n / 10 % 10), Nat.digitChar (n % 10)] := by
  simp [digits]

theorem decimalValue_two (n : Nat) (hn : n < 100) :
    decimalValue [Nat.digitChar (n / 10 % 10), Nat.digitChar (n % 10)] = some n := by
  rw [← digits_two, decimalValue_digits, Nat.mod_eq_of_lt (by simpa using hn)]

theorem decimalValue_three (n : Nat) (hn : n < 1000) :
    decimalValue [Nat.digitChar (n / 10 / 10 % 10), Nat.digitChar (n / 10 % 10),
      Nat.digitChar (n % 10)] = some n := by
  rw [← digits_three, decimalValue_digits, Nat.mod_eq_of_lt (by simpa using hn)]

theorem decimalValue_four (n : Nat) (hn : n < 10000) :
    decimalValue [Nat.digitChar (n / 10 / 10 / 10 % 10), Nat.digitChar (n / 10 / 10 % 10),
      Nat.digitChar (n / 10 % 10), Nat.digitChar (n % 10)] = some n := by
  rw [← digits_four, decimalValue_digits, Nat.mod_eq_of_lt (by simpa using hn)]

theorem readTail_tailChars (y : Int) (mo d h mi s ms : Nat)
    (h1 : mo < 100) (h2 : d < 100) (h3 : h < 100) (h4 : mi < 100) (h5 : s < 100)
    (h6 : ms < 1000) :
    readTail y (tailChars mo d h mi s ms)
      = some { year := y, month := mo, day := d, hour := h, minute := mi, second := s,
               millisecond := ms } := by
  simp only [tailChars, digits_two, digits_three, List.cons_append, List.nil_append, readTail,
    and_self, if_true, decimalValue_two _ h1, decimalValue_two _ h2, decimalValue_two _ h3,
    decimalValue_two _ h4, decimalValue_two _ h5, decimalValue_three _ h6, Option.some_bind]

theorem length_tailChars (mo d h mi s ms : Nat) : (tailChars mo d h mi s ms).length = 20 := by
  simp [tailChars, length_digits]

theorem digitChar_ne_sign (d : Nat) (hd : d < 10) :
    Nat.digitChar d ≠ '+' ∧ Nat.digitChar d ≠ '-' := by
  interval_cases d <;> decide

theorem isoChars_eq (t : Int) :
    isoChars t = yearString (YearFromTime t) ++
      tailChars (MonthFromTime t + 1).toNat (DateFromTime t).toNat (HourFromTime t).toNat
        (MinFromTime t).toNat (SecFromTime t).toNat (msFromTime t).toNat := by
  simp [isoChars, tailChars]

theorem readISO_four (n : Nat) (hn : n < 10000) (tl : List Char) :
    readISO (String.mk (digits 4 n ++ tl)) = readTail (n : Int) tl := by
  have hc := digitChar_ne_sign (n / 10 / 10 / 10 % 10) (Nat.mod_lt _ (by decide))
  simp only [readISO, digits_four, List.cons_append, List.nil_append, hc.1, hc.2, if_false,
    List.take_succ_cons, List.take_zero, List.drop_succ_cons, List.drop_zero,
    decimalValue_four n hn, Option.some_bind]

theorem readISO_expanded (neg : Bool) (n : Nat) (hn : n < 1000000) (tl : List Char) :
    readISO (String.mk ((if neg then '-' else '+') :: (digits 6 n ++ tl)))
      = readTail (if neg then -(n : Int) else (n : Int)) tl := by
  have ht : (digits 6 n ++ tl).take 6 = digits 6 n := by
    rw [List.take_append_of_le_length (by simp [length_digits])]
    exact List.take_of_length_le (by simp [length_digits])
  have hd : (digits 6 n ++ tl).drop 6 = tl := by
    rw [List.drop_append_of_le_length (by simp [length_digits])]
    simp [List.drop_of_length_le, length_digits]
  have hv : decimalValue (digits 6 n) = some n := by
    rw [decimalValue_digits, Nat.mod_eq_of_lt (by simpa using hn)]
  cases neg <;> simp [readISO, ht, hd, hv]

theorem readISO_toISOString (t : Int) (ht : IsTimeValue t) :
    readISO (toISOString t) = some (fieldsOf t) := by
  obtain ⟨y1, y2⟩ := YearFromTime_range t ht
  obtain ⟨d1, d2, d3, d4, -⟩ := date_fields t
  obtain ⟨t1, t2, t3, t4, t5, t6, t7, t8, -⟩ := time_fields t
  have hdm : daysInMonth (YearFromTime t) (MonthFromTime t + 1).toNat ≤ 31 := by
    unfold daysInMonth; split_ifs <;> omega
  unfold toISOString
  rw [isoChars_eq]
  by_cases hy : 0 ≤ YearFromTime t ∧ YearFromTime t ≤ 9999
  · rw [yearString, if_pos hy, readISO_four _ (by omega),
      readTail_tailChars _ _ _ _ _ _ _ (by omega) (by omega) (by omega) (by omega) (by omega)
        (by omega)]
    simp [fieldsOf, hy.1]
  · rw [yearString, if_neg hy]
    have := readISO_expanded (decide (YearFromTime t < 0)) (YearFromTime t).natAbs (by omega)
    simp only [decide_eq_true_eq] at this
    rw [List.cons_append, this, readTail_tailChars _ _ _ _ _ _ _ (by omega) (by omega) (by omega) (by omega)
      (by omega) (by omega)]
    simp only [fieldsOf]
    congr 2
    split_ifs <;> omega

theorem instantOf_fieldsOf (t : Int) : instantOf (fieldsOf t) = t := by
  obtain ⟨d1, d2, d3, d4, d5⟩ := date_fields t
  obtain ⟨t1, t2, t3, t4, t5, t6, t7, t8, t9⟩ := time_fields t
  simp only [instantOf, fieldsOf, Int.toNat_of_nonneg t1, Int.toNat_of_nonneg t3,
    Int.toNat_of_nonneg t5, Int.toNat_of_nonneg t7,
    Int.toNat_of_nonneg (le_trans (by decide : (0 : Int) ≤ 1) d3), d5]
  exact t9

theorem length_yearString (y : Int) (hy : 0 ≤ y ∧ y ≤ 9999) : (yearString y).length = 4 := by
  rw [yearString, if_pos hy, length_digits]

theorem length_toISOString (t : Int) (hy : 0 ≤ YearFromTime t ∧ YearFromTime t ≤ 9999) :
    (toISOString t).length = 24 := by
  show (isoChars t).length = 24
  rw [isoChars_eq, List.length_append, length_yearString _ hy, length_tailChars]

theorem getLast_toISOString (t : Int) : (toISOString t).data.getLast? = some 'Z' := by
  show (isoChars t).getLast? = some 'Z'
  have h : isoChars t =
      (yearString (YearFromTime t) ++ '-' :: digits 2 (MonthFromTime t + 1).toNat ++ '-' ::
        digits 2 (DateFromTime t).toNat ++ 'T' :: digits 2 (HourFromTime t).toNat ++ ':' ::
        digits 2 (MinFromTime t).toNat ++ ':' :: digits 2 (SecFromTime t).toNat ++ '.' ::
        digits 3 (msFromTime t).toNat) ++ ['Z'] := by
    simp [isoChars]
  rw [h, List.getLast?_append]
  rfl

theorem fieldsOf_valid (t : Int) :
    1 ≤ (fieldsOf t).month ∧ (fieldsOf t).month ≤ 12 ∧
    1 ≤ (fieldsOf t).day ∧ (fieldsOf t).day ≤ daysInMonth (fieldsOf t).year (fieldsOf t).month ∧
    (fieldsOf t).hour ≤ 23 ∧ (fieldsOf t).minute ≤ 59 ∧ (fieldsOf t).second ≤ 59 ∧
    ((fieldsOf t).millisecond : Int) = t % 1000 := by
  obtain ⟨d1, d2, d3, d4, -⟩ := date_fields t
  obtain ⟨t1, t2, t3, t4, t5, t6, t7, t8, -⟩ := time_fields t
  simp only [fieldsOf]
  refine ⟨by omega, by omega, by omega, by omega, by omega, by omega, by omega, ?_⟩
  rw [Int.toNat_of_nonneg t7]
  rfl

theorem append_lt_append_left (as xs ys : List Char) (h : xs < ys) : as ++ xs < as ++ ys := by
  induction as with
  | nil => exact h
  | cons a as ih => exact List.Lex.cons ih

theorem append_lt_append_of_lt (as bs xs ys : List Char) (h : as < bs)
    (hl : as.length = bs.length) : as ++ xs < bs ++ ys := by
  induction as generalizing bs with
  | nil =>
    cases bs with
    | nil => exact absurd h (by intro h; cases h)
    | cons b bs => simp at hl
  | cons a as ih =>
    cases bs with
    | nil => simp at hl
    | cons b bs =>
      cases h with
      | rel hab => exact List.Lex.rel hab
      | cons h3 => exact List.Lex.cons (ih bs h3 (by simpa using hl))

theorem digitChar_lt (x y : Nat) (hxy : x < y) (hy : y < 10) :
    Nat.digitChar x < Nat.digitChar y := by
  interval_cases y <;> interval_cases x <;> decide

theorem digits_lt (w a b : Nat) (hab : a < b) (hb : b < 10 ^ w) : digits w a < digits w b := by
  induction w generalizing a b with
  | zero => simp at hb; omega
  | succ w ih =>
    rw [digits, digits]
    rw [pow_succ] at hb
    by_cases hq : a / 10 < b / 10
    · exact append_lt_append_of_lt _ _ _ _ (ih _ _ hq (by omega))
        (by rw [length_digits, length_digits])
    · have he : a / 10 = b / 10 := by omega
      rw [he]
      apply append_lt_append_left
      exact List.Lex.rel (digitChar_lt (a % 10) (b % 10) (by omega) (Nat.mod_lt _ (by decide)))

/-- A smaller field of the same width makes the whole rendering smaller. -/
theorem field_lt (w a b : Nat) (xs ys : List Char) (hab : a < b) (hb : b < 10 ^ w) :
    digits w a ++ xs < digits w b ++ ys :=
  append_lt_append_of_lt _ _ _ _ (digits_lt w a b hab hb) (by rw [length_digits, length_digits])

/-- With equal fields, the order is decided by what follows the separator. -/
theorem field_eq (w a : Nat) (c : Char) (xs ys : List Char) (h : xs < ys) :
    digits w a ++ c :: xs < digits w a ++ c :: ys :=
  append_lt_append_left _ _ _ (List.Lex.cons h)

theorem daysBeforeMonth_succ (y : Int) (m : Nat) (hm : 1 ≤ m) :
    daysBeforeMonth y (m + 1) = daysBeforeMonth y m + daysInMonth y m := by
  obtain ⟨k, rfl⟩ : ∃ k, m = k + 1 := ⟨m - 1, by omega⟩
  simp [daysBeforeMonth, List.range_succ]

theorem daysBeforeMonth_mono (y : Int) (m n : Nat) (hm : 1 ≤ m) (hmn : m ≤ n) :
    daysBeforeMonth y m ≤ daysBeforeMonth y n := by
  induction n with
  | zero => omega
  | succ n ih =>
    by_cases h : m = n + 1
    · rw [h]
    · have := ih (by omega)
      rw [daysBeforeMonth_succ y n (by omega)]
      omega

theorem fields_of_Day_eq (t1 t2 : Int) (h : Day t1 = Day t2) :
    YearFromTime t1 = YearFromTime t2 ∧ MonthFromTime t1 = MonthFromTime t2 ∧
    DateFromTime t1 = DateFromTime t2 := by
  have hy : YearFromTime t1 = YearFromTime t2 := by unfold YearFromTime; rw [h]
  have hw : DayWithinYear t1 = DayWithinYear t2 := by unfold DayWithinYear; rw [h, hy]
  have hl : InLeapYear t1 = InLeapYear t2 := by unfold InLeapYear; rw [hy]
  have hm : MonthFromTime t1 = MonthFromTime t2 := by unfold MonthFromTime; rw [hw, hl]
  refine ⟨hy, hm, ?_⟩
  unfold DateFromTime; rw [hw, hl, hm]

theorem YearFromTime_mono (t1 t2 : Int) (h : Day t1 ≤ Day t2) :
    YearFromTime t1 ≤ YearFromTime t2 := by
  by_contra hc
  have h1 := (YearFromTime_days t1).1
  have h2 := (YearFromTime_days t2).2
  have h3 := DayFromYear_mono (YearFromTime t2 + 1) (YearFromTime t1) (by omega)
  omega

/-- The calendar date grows with the day number, in the order year, month, day. -/
theorem date_lex (t1 t2 : Int) (h : Day t1 < Day t2) :
    YearFromTime t1 < YearFromTime t2 ∨
    (YearFromTime t1 = YearFromTime t2 ∧
      (MonthFromTime t1 < MonthFromTime t2 ∨
        (MonthFromTime t1 = MonthFromTime t2 ∧ DateFromTime t1 < DateFromTime t2))) := by
  have hy := YearFromTime_mono t1 t2 (le_of_lt h)
  rcases lt_or_eq_of_le hy with hlt | heq
  · exact Or.inl hlt
  · right
    refine ⟨heq, ?_⟩
    obtain ⟨a1, a2, a3, a4, a5⟩ := date_fields t1
    obtain ⟨b1, b2, b3, b4, b5⟩ := date_fields t2
    rw [← heq] at b4 b5
    rcases lt_trichotomy (MonthFromTime t1) (MonthFromTime t2) with hm | hm | hm
    · exact Or.inl hm
    · right
      refine ⟨hm, ?_⟩
      rw [← hm] at b5
      omega
    · exfalso
      have hs := daysBeforeMonth_succ (YearFromTime t1) (MonthFromTime t2 + 1).toNat (by omega)
      have hmono := daysBeforeMonth_mono (YearFromTime t1) ((MonthFromTime t2 + 1).toNat + 1)
        (MonthFromTime t1 + 1).toNat (by omega) (by omega)
      omega

/-- Within one day, the time of day grows in the order hour, minute, second,
millisecond. -/
theorem time_lex (t1 t2 : Int) (hd : Day t1 = Day t2) (h : t1 < t2) :
    HourFromTime t1 < HourFromTime t2 ∨
    (HourFromTime t1 = HourFromTime t2 ∧
      (MinFromTime t1 < MinFromTime t2 ∨
        (MinFromTime t1 = MinFromTime t2 ∧
          (SecFromTime t1 < SecFromTime t2 ∨
            (SecFromTime t1 = SecFromTime t2 ∧ msFromTime t1 < msFromTime t2))))) := by
  obtain ⟨a1, a2, a3, a4, a5, a6, a7, a8, a9⟩ := time_fields t1
  obtain ⟨b1, b2, b3, b4, b5, b6, b7, b8, b9⟩ := time_fields t2
  rw [hd] at a9
  unfold msPerDay msPerHour msPerMinute msPerSecond at a9 b9
  omega

theorem tailChars_eq (mo d h mi s ms : Nat) :
    tailChars mo d h mi s ms
      = '-' :: (digits 2 mo ++ '-' :: (digits 2 d ++ 'T' :: (digits 2 h ++ ':' ::
          (digits 2 mi ++ ':' :: (digits 2 s ++ '.' :: (digits 3 ms ++ ['Z'])))))) := by
  simp [tailChars]

theorem tailChars_lt (M1 D1 h1 m1 s1 x1 M2 D2 h2 m2 s2 x2 : Nat)
    (bM : M2 < 100) (bD : D2 < 100) (bh : h2 < 100) (bm : m2 < 100) (bs : s2 < 100)
    (bx : x2 < 1000)
    (hlex : M1 < M2 ∨ (M1 = M2 ∧ (D1 < D2 ∨ (D1 = D2 ∧ (h1 < h2 ∨ (h1 = h2 ∧
      (m1 < m2 ∨ (m1 = m2 ∧ (s1 < s2 ∨ (s1 = s2 ∧ x1 < x2)))))))))) :
    tailChars M1 D1 h1 m1 s1 x1 < tailChars M2 D2 h2 m2 s2 x2 := by
  rw [tailChars_eq, tailChars_eq]
  apply List.Lex.cons
  rcases hlex with h | ⟨rfl, hlex⟩
  · exact field_lt 2 _ _ _ _ h (by simpa using bM)
  apply field_eq
  rcases hlex with h | ⟨rfl, hlex⟩
  · exact field_lt 2 _ _ _ _ h (by simpa using bD)
  apply field_eq
  rcases hlex with h | ⟨rfl, hlex⟩
  · exact field_lt 2 _ _ _ _ h (by simpa using bh)
  apply field_eq
  rcases hlex with h | ⟨rfl, hlex⟩
  · exact field_lt 2 _ _ _ _ h (by simpa using bm)
  apply field_eq
  rcases hlex with h | ⟨rfl, hlex⟩
  · exact field_lt 2 _ _ _ _ h (by simpa using bs)
  apply field_eq
  exact field_lt 3 _ _ _ _ hlex (by simpa using bx)

theorem isoChars_lt (t1 t2 : Int) (h : t1 < t2)
    (y1 : InFourDigitYears t1) (y2 : InFourDigitYears t2) : isoChars t1 < isoChars t2 := by
  obtain ⟨a1, a2, a3, a4, -⟩ := date_fields t1
  obtain ⟨b1, b2, b3, b4, -⟩ := date_fields t2
  obtain ⟨c1, c2, c3, c4, c5, c6, c7, c8, -⟩ := time_fields t1
  obtain ⟨e1, e2, e3, e4, e5, e6, e7, e8, -⟩ := time_fields t2
  have hdm : daysInMonth (YearFromTime t2) (MonthFromTime t2 + 1).toNat ≤ 31 := by
    unfold daysInMonth; split_ifs <;> omega
  have hday : Day t1 ≤ Day t2 := by unfold Day msPerDay; omega
  unfold InFourDigitYears at y1 y2
  rw [isoChars_eq, isoChars_eq, yearString, yearString, if_pos y1, if_pos y2]
  rcases lt_or_eq_of_le hday with hd | hd
  · rcases date_lex t1 t2 hd with hy | ⟨hy, hm⟩
    · exact field_lt 4 _ _ _ _ (by omega) (by omega)
    · rw [hy]
      apply append_lt_append_left
      apply tailChars_lt _ _ _ _ _ _ _ _ _ _ _ _ (by omega) (by omega) (by omega) (by omega)
        (by omega) (by omega)
      omega
  · obtain ⟨hy, hm, hdt⟩ := fields_of_Day_eq t1 t2 hd
    have ht := time_lex t1 t2 hd h
    rw [hy, hm, hdt]
    apply append_lt_append_left
    apply tailChars_lt _ _ _ _ _ _ _ _ _ _ _ _ (by omega) (by omega) (by omega) (by omega)
      (by omega) (by omega)
    omega

theorem toISOString_lt (t1 t2 : Int) (h : t1 < t2)
    (y1 : InFourDigitYears t1) (y2 : InFourDigitYears t2) : toISOString t1 < toISOString t2 :=
  String.lt_iff_toList_lt.mpr (isoChars_lt t1 t2 h y1 y2)

/-! ## The script -/

theorem modify_append_length {α : Type} (f : α → α) (h : List α) (o : α) (tl : List α) :
    (h ++ o :: tl).modify f h.length = h ++ f o :: tl := by
  induction h with
  | nil => rfl
  | cons x xs ih => simpa [List.modify, List.modifyTailIdx] using ih

theorem heap_get_old {α : Type} (h ext : List α) (a : Nat) (ha : a < h.length) :
    (h ++ ext)[a]? = h[a]? := by
  simp [List.getElem?_append_left ha]

theorem heap_get_new {α : Type} (h : List α) (o : α) (tl : List α) :
    (h ++ o :: tl)[h.length]? = some o := by
  rw [List.getElem?_append_right (Nat.le_refl _)]; simp

theorem heap_get_new1 {α : Type} (h : List α) (o o1 : α) (tl : List α) :
    (h ++ o :: o1 :: tl)[h.length + 1]? = some o1 := by
  rw [List.getElem?_append_right (Nat.le_add_right _ _)]; simp

theorem getV_ok (h : Heap) (msg : JSValue) (key : String)
    (h1 : msg ≠ .undefined) (h2 : msg ≠ .null) : getV h msg key = .ok (readV h msg key) := by
  cases msg <;> simp_all [getV, readV]
  rename_i a
  cases h[a]? <;> rfl

theorem readV_append (h ext : Heap) (msg : JSValue) (key : String) (hv : ValidIn h msg) :
    readV (h ++ ext) msg key = readV h msg key := by
  cases msg <;> simp [readV, getV]
  rename_i a
  rw [heap_get_old h ext a (hv a rfl)]

theorem createDataProperty_new (h : Heap) (o : JSObject) (tl : Heap) (key : String)
    (v : JSValue) :
    createDataProperty (h ++ o :: tl) h.length key v
      = h ++ { o with props := setProp o.props key v } :: tl := by
  unfold createDataProperty
  exact modify_append_length _ h o tl

theorem callToISOString_newDate (h : Heap) (now : Int) :
    callToISOString (h ++ [{ props := [], dateValue := some now }]) (.object h.length)
      = .ok (toISOString now) := by
  simp only [callToISOString, heap_get_new]

theorem newPayload_eq (now : Int) (msg : JSValue) (h : Heap)
    (h1 : msg ≠ .undefined) (h2 : msg ≠ .null) :
    ∃ v1 v2 v3 v4 : JSValue,
      newPayload now msg h
        = .ok (h ++ [payloadRecord v1 v2 v3 v4 now, { props := [], dateValue := some now }],
            h.length) ∧
      (ValidIn h msg →
        v1 = readV h msg "machine_id" ∧ v2 = readV h msg "total_Count" ∧
        v3 = readV h msg "batch" ∧ v4 = readV h msg "Flavor") := by
  let v1 := readV (h ++ [emptyObject]) msg "machine_id"
  let o1 : JSObject := { props := [("machine_id", v1)], dateValue := none }
  let v2 := readV (h ++ [o1]) msg "total_Count"
  let o2 : JSObject := { props := [("machine_id", v1), ("total_Count", v2)], dateValue := none }
  let v3 := readV (h ++ [o2]) msg "batch"
  let o3 : JSObject :=
    { props := [("machine_id", v1), ("total_Count", v2), ("batch", v3)], dateValue := none }
  let v4 := readV (h ++ [o3]) msg "Flavor"
  refine ⟨v1, v2, v3, v4, ?_, ?_⟩
  · unfold newPayload
    simp only [alloc, newDate, bind, Except.bind, getV_ok _ msg _ h1 h2, pure, Except.pure,
      createDataProperty_new, emptyObject, setProp, callToISOString_newDate]
    simp only [List.append_assoc, List.singleton_append, createDataProperty_new]
    simp [payloadRecord, setProp, v1, v2, v3, v4, o1, o2, o3, emptyObject]
  · intro hv
    exact ⟨readV_append _ _ _ _ hv, readV_append _ _ _ _ hv, readV_append _ _ _ _ hv,
      readV_append _ _ _ _ hv⟩

theorem script_eq (now : Int) (msg metadata msgType : JSValue) (h : Heap)
    (h1 : msg ≠ .undefined) (h2 : msg ≠ .null) :
    ∃ v1 v2 v3 v4 : JSValue,
      script now msg metadata msgType h
        = .ok (.object (h.length + 2),
            h ++ [payloadRecord v1 v2 v3 v4 now, dateObject now,
              wrapperObject h.length metadata msgType]) ∧
      (ValidIn h msg →
        v1 = readV h msg "machine_id" ∧ v2 = readV h msg "total_Count" ∧
        v3 = readV h msg "batch" ∧ v4 = readV h msg "Flavor") := by
  obtain ⟨v1, v2, v3, v4, he, hv⟩ := newPayload_eq now msg h h1 h2
  refine ⟨v1, v2, v3, v4, ?_, hv⟩
  unfold script
  simp only [he, bind, Except.bind, alloc, pure, Except.pure, createDataProperty_new,
    emptyObject, setProp]
  simp [wrapperObject, dateObject, setProp]

theorem script_error (now : Int) (msg metadata msgType : JSValue) (h : Heap)
    (hm : msg = .undefined ∨ msg = .null) :
    script now msg metadata msgType h = .error .TypeError := by
  rcases hm with rfl | rfl <;> rfl

theorem heap_get_idx0 (h : Heap) (o1 o2 o3 : JSObject) :
    (h ++ [o1, o2, o3])[h.length]? = some o1 := heap_get_new h o1 [o2, o3]

theorem heap_get_idx2 (h : Heap) (o1 o2 o3 : JSObject) :
    (h ++ [o1, o2, o3])[h.length + 2]? = some o3 := by
  rw [List.getElem?_append_right (Nat.le_add_right _ _)]; simp

theorem field_wrapper (h : Heap) (o1 o2 : JSObject) (p : Addr) (metadata msgType : JSValue)
    (key : String) :
    field (h ++ [o1, o2, wrapperObject p metadata msgType]) (.object (h.length + 2)) key
      = lookup (wrapperObject p metadata msgType).props key := by
  simp only [field, heap_get_idx2, Option.bind]

theorem field_record (h : Heap) (o1 o2 o3 : JSObject) (key : String) :
    field (h ++ [o1, o2, o3]) (.object h.length) key = lookup o1.props key := by
  simp only [field, heap_get_idx0, Option.bind]

theorem outputField_closed (h : Heap) (o1 o2 : JSObject) (metadata msgType : JSValue)
    (key : String) :
    outputField (.ok (.object (h.length + 2),
        h ++ [o1, o2, wrapperObject h.length metadata msgType])) key
      = lookup o1.props key := by
  simp only [outputField, field_wrapper]
  simp [wrapperObject, lookup, field_record]

theorem outputRecord_closed (h : Heap) (o1 o2 : JSObject) (metadata msgType : JSValue) :
    outputRecord (.ok (.object (h.length + 2),
        h ++ [o1, o2, wrapperObject h.length metadata msgType]))
      = some (.object h.length) := by
  simp only [outputRecord, field_wrapper]
  simp [wrapperObject, lookup]

theorem readV_of_field (h : Heap) (msg : JSValue) (key : String) (v : JSValue)
    (hf : field h msg key = some v) : readV h msg key = v := by
  cases msg <;> simp only [field, reduceCtorEq] at hf
  rename_i a
  cases ho : h[a]? with
  | none => simp [ho] at hf
  | some o =>
    simp only [ho, Option.some_bind] at hf
    simp [readV, getV, ho, hf]

theorem readV_of_no_field (h : Heap) (msg : JSValue) (key : String)
    (hf : field h msg key = none) : readV h msg key = .undefined := by
  cases msg <;> simp [readV, getV]
  rename_i a
  simp only [field] at hf
  cases ho : h[a]? with
  | none => rfl
  | some o =>
    simp [ho] at hf
    simp [hf]

/-- The value the record holds for one of the four copied fields. -/
theorem lookup_payloadRecord (v1 v2 v3 v4 : JSValue) (now : Int) :
    lookup (payloadRecord v1 v2 v3 v4 now).props "machine_id" = some v1 ∧
    lookup (payloadRecord v1 v2 v3 v4 now).props "total_Count" = some v2 ∧
    lookup (payloadRecord v1 v2 v3 v4 now).props "batch" = some v3 ∧
    lookup (payloadRecord v1 v2 v3 v4 now).props "Flavor" = some v4 ∧
    lookup (payloadRecord v1 v2 v3 v4 now).props "Timestamp"
      = some (.string (toISOString now)) := by
  simp [payloadRecord, lookup]

/-- What the output record holds for a copied field, in terms of the read of
the same field of `msg` in the heap at the call. -/
theorem outputField_copied (now : Int) (msg metadata msgType : JSValue) (h : Heap)
    (h1 : msg ≠ .undefined) (h2 : msg ≠ .null) (hv : ValidIn h msg)
    (key : String) (hk : key ∈ copiedFields) :
    outputField (script now msg metadata msgType h) key = some (readV h msg key) := by
  obtain ⟨v1, v2, v3, v4, he, hr⟩ := script_eq now msg metadata msgType h h1 h2
  obtain ⟨e1, e2, e3, e4⟩ := hr hv
  obtain ⟨l1, l2, l3, l4, _⟩ := lookup_payloadRecord v1 v2 v3 v4 now
  rw [he, outputField_closed]
  simp only [copiedFields, List.mem_cons, List.mem_singleton, List.not_mem_nil, or_false] at hk
  rcases hk with rfl | rfl | rfl | rfl
  · rw [l1, e1]
  · rw [l2, e2]
  · rw [l3, e3]
  · rw [l4, e4]

/-- C1: for a message that is an object of the heap, the record returned under
key `msg` holds, for each of machine_id, total_Count, batch and Flavor, the very
value the input message holds for that field. -/
theorem script_copies_fields (now : Int) (a : Addr) (metadata msgType : JSValue) (h : Heap)
    (ha : a < h.length) :
    ∃ w h' p, script now (.object a) metadata msgType h = .ok (w, h') ∧
      field h' w "msg" = some p ∧
      ∀ key ∈ copiedFields, ∀ v, field h (.object a) key = some v → field h' p key = some v := by
  have hv : ValidIn h (.object a) := by
    intro b hb; cases hb; exact ha
  obtain ⟨v1, v2, v3, v4, he, -⟩ :=
    script_eq now (.object a) metadata msgType h (by simp) (by simp)
  refine ⟨_, _, .object h.length, he, ?_, ?_⟩
  · simpa [outputRecord] using outputRecord_closed h _ _ metadata msgType
  · intro key hk v hf
    have := outputField_copied now (.object a) metadata msgType h (by simp) (by simp) hv key hk
    rw [he, outputField_closed] at this
    rw [field_record, this, readV_of_field h _ key v hf]

theorem fieldNames_wrapper (h : Heap) (o1 o2 : JSObject) (p : Addr) (metadata msgType : JSValue) :
    fieldNames (h ++ [o1, o2, wrapperObject p metadata msgType]) (.object (h.length + 2))
      = some ["msg", "metadata", "msgType"] := by
  simp only [fieldNames, heap_get_idx2, Option.map]
  rfl

theorem fieldNames_record (h : Heap) (o1 o2 o3 : JSObject) :
    fieldNames (h ++ [o1, o2, o3]) (.object h.length) = some (keys o1) := by
  simp only [fieldNames, heap_get_idx0, Option.map]

/-- C2: the returned wrapper has exactly the keys msg, metadata and msgType, its
metadata and msgType are the supplied values whatever msg and the clock are,
and no object that existed at the call is changed. -/
theorem script_wrapper_passthrough (now : Int) (a : Addr) (metadata msgType : JSValue)
    (h : Heap) :
    ∃ w h', script now (.object a) metadata msgType h = .ok (w, h') ∧
      fieldNames h' w = some ["msg", "metadata", "msgType"] ∧
      field h' w "metadata" = some metadata ∧
      field h' w "msgType" = some msgType ∧
      ∀ b, b < h.length → h'[b]? = h[b]? := by
  obtain ⟨v1, v2, v3, v4, he, -⟩ :=
    script_eq now (.object a) metadata msgType h (by simp) (by simp)
  refine ⟨_, _, he, fieldNames_wrapper _ _ _ _ _ _, ?_, ?_, ?_⟩
  · rw [field_wrapper]; simp [wrapperObject, lookup]
  · rw [field_wrapper]; simp [wrapperObject, lookup]
  · intro b hb
    exact heap_get_old h _ b hb

/-- C3: whatever properties the input message has, the output record has
exactly the five keys machine_id, total_Count, batch, Flavor and Timestamp. -/
theorem script_record_keys (now : Int) (a : Addr) (metadata msgType : JSValue) (h : Heap) :
    ∃ w h' p, script now (.object a) metadata msgType h = .ok (w, h') ∧
      field h' w "msg" = some p ∧
      fieldNames h' p = some ["machine_id", "total_Count", "batch", "Flavor", "Timestamp"] := by
  obtain ⟨v1, v2, v3, v4, he, -⟩ :=
    script_eq now (.object a) metadata msgType h (by simp) (by simp)
  refine ⟨_, _, .object h.length, he, ?_, ?_⟩
  · simpa [outputRecord] using outputRecord_closed h _ _ metadata msgType
  · rw [fieldNames_record]; rfl

/-- C4: for a message that is an object of the heap, the script returns; a
copied field the message does not have is present in the output record with
the value `undefined`, and a field it has is copied unchanged. -/
theorem script_missing_fields (now : Int) (a : Addr) (metadata msgType : JSValue) (h : Heap)
    (ha : a < h.length) :
    ∃ w h' p, script now (.object a) metadata msgType h = .ok (w, h') ∧
      field h' w "msg" = some p ∧
      ∀ key ∈ copiedFields,
        (field h (.object a) key = none → field h' p key = some .undefined) ∧
        (∀ v, field h (.object a) key = some v → field h' p key = some v) := by
  have hv : ValidIn h (.object a) := by
    intro b hb; cases hb; exact ha
  obtain ⟨v1, v2, v3, v4, he, -⟩ :=
    script_eq now (.object a) metadata msgType h (by simp) (by simp)
  refine ⟨_, _, .object h.length, he, ?_, ?_⟩
  · simpa [outputRecord] using outputRecord_closed h _ _ metadata msgType
  · intro key hk
    have := outputField_copied now (.object a) metadata msgType h (by simp) (by simp) hv key hk
    rw [he, outputField_closed] at this
    constructor
    · intro hf
      rw [field_record, this, readV_of_no_field h _ key hf]
    · intro v hf
      rw [field_record, this, readV_of_field h _ key v hf]

theorem outputField_timestamp (now : Int) (msg metadata msgType : JSValue) (h : Heap)
    (h1 : msg ≠ .undefined) (h2 : msg ≠ .null) :
    outputField (script now msg metadata msgType h) "Timestamp"
      = some (.string (toISOString now)) := by
  obtain ⟨v1, v2, v3, v4, he, -⟩ := script_eq now msg metadata msgType h h1 h2
  rw [he, outputField_closed]
  exact (lookup_payloadRecord v1 v2 v3 v4 now).2.2.2.2

/-- C5: for one clock reading and any two inputs on which the script returns,
the Timestamp of both output records is the ISO rendering of the clock
reading; nothing of the inputs enters it. -/
theorem timestamp_from_clock_only (now : Int)
    (msg1 metadata1 msgType1 : JSValue) (h1 : Heap)
    (msg2 metadata2 msgType2 : JSValue) (h2 : Heap)
    (hu1 : msg1 ≠ .undefined) (hn1 : msg1 ≠ .null)
    (hu2 : msg2 ≠ .undefined) (hn2 : msg2 ≠ .null) :
    outputField (script now msg1 metadata1 msgType1 h1) "Timestamp"
        = some (.string (toISOString now)) ∧
    outputField (script now msg2 metadata2 msgType2 h2) "Timestamp"
        = some (.string (toISOString now)) :=
  ⟨outputField_timestamp now msg1 metadata1 msgType1 h1 hu1 hn1,
   outputField_timestamp now msg2 metadata2 msgType2 h2 hu2 hn2⟩

/-- C8: for a message that is an object of the heap, the heap after the call is
the heap at the call followed by newly allocated objects, so every object that
existed (the message, and metadata or msgType when they are objects) keeps its
properties; the output record is one of the new objects, distinct from the
message, and a later modification of it leaves the message as it was. -/
theorem script_frame (now : Int) (a : Addr) (metadata msgType : JSValue) (h : Heap)
    (ha : a < h.length) :
    ∃ w h' p, script now (.object a) metadata msgType h = .ok (w, h') ∧
      field h' w "msg" = some (.object p) ∧
      (∃ ext, h' = h ++ ext) ∧
      (∀ b, b < h.length → h'[b]? = h[b]?) ∧
      fieldNames h' (.object a) = fieldNames h (.object a) ∧
      (∀ key, field h' (.object a) key = field h (.object a) key) ∧
      h.length ≤ p ∧ p ≠ a ∧
      ∀ f : JSObject → JSObject, (h'.modify f p)[a]? = h[a]? := by
  obtain ⟨v1, v2, v3, v4, he, -⟩ :=
    script_eq now (.object a) metadata msgType h (by simp) (by simp)
  refine ⟨_, _, h.length, he, ?_, ⟨_, rfl⟩, ?_, ?_, ?_, Nat.le_refl _, Nat.ne_of_gt ha, ?_⟩
  · simpa [outputRecord] using outputRecord_closed h _ _ metadata msgType
  · intro b hb
    exact heap_get_old h _ b hb
  · simp only [fieldNames, heap_get_old h _ a ha]
  · intro key
    simp only [field, heap_get_old h _ a ha]
  · intro f
    rw [modify_append_length, heap_get_old h _ a ha]

/-- C9: the script throws exactly when msg is `null` or `undefined`, and then it
throws a TypeError; on every other msg it returns a wrapper, and for a
primitive msg the four copied fields of the output record are `undefined`. -/
theorem script_raises_iff (now : Int) (msg metadata msgType : JSValue) (h : Heap) :
    (script now msg metadata msgType h = .error .TypeError ↔ (msg = .null ∨ msg = .undefined)) ∧
    ((∃ w h', script now msg metadata msgType h = .ok (w, h')) ↔
      ¬ (msg = .null ∨ msg = .undefined)) ∧
    (isPrimitive msg = true →
      ∀ key ∈ copiedFields,
        outputField (script now msg metadata msgType h) key = some .undefined) := by
  by_cases hm : msg = .null ∨ msg = .undefined
  · have he := script_error now msg metadata msgType h hm.symm
    refine ⟨by simp [he, hm], by simp [he, hm], ?_⟩
    rcases hm with rfl | rfl <;> simp [isPrimitive]
  · have h1 : msg ≠ .undefined := fun e => hm (Or.inr e)
    have h2 : msg ≠ .null := fun e => hm (Or.inl e)
    obtain ⟨v1, v2, v3, v4, he, -⟩ := script_eq now msg metadata msgType h h1 h2
    refine ⟨by simp [he, hm], by simp [he, hm], ?_⟩
    intro hp key hk
    have hv : ValidIn h msg := by
      intro b hb; subst hb; simp [isPrimitive] at hp
    rw [outputField_copied now msg metadata msgType h h1 h2 hv key hk]
    cases msg <;> simp_all [isPrimitive, readV, getV]

/-- C6: for every clock reading a Date can hold, the Timestamp of the output
record reads as an ISO-8601 UTC date-time, `YYYY-MM-DDTHH:mm:ss.sssZ` with the
year in four digits or in the expanded signed six-digit form: its month is 1 to
12, its day is valid for that month and year, its hour is at most 23, its
minute and second at most 59, its three fraction digits are `t mod 1000`, the
date and time it writes denote the instant `t`, its last character is `Z`, and
within the years 0000 to 9999 it is 24 characters long. -/
theorem timestamp_wellFormed (t : Int) (ht : IsTimeValue t) (a : Addr)
    (metadata msgType : JSValue) (h : Heap) :
    ∃ s f, outputField (script t (.object a) metadata msgType h) "Timestamp"
        = some (.string s) ∧
      readISO s = some f ∧
      1 ≤ f.month ∧ f.month ≤ 12 ∧ 1 ≤ f.day ∧ f.day ≤ daysInMonth f.year f.month ∧
      f.hour ≤ 23 ∧ f.minute ≤ 59 ∧ f.second ≤ 59 ∧
      (f.millisecond : Int) = t % 1000 ∧
      instantOf f = t ∧
      s.data.getLast? = some 'Z' ∧
      (0 ≤ f.year ∧ f.year ≤ 9999 → s.length = 24) := by
  obtain ⟨v1, v2, v3, v4, v5, v6, v7, v8⟩ := fieldsOf_valid t
  exact ⟨toISOString t, fieldsOf t,
    outputField_timestamp t (.object a) metadata msgType h (by simp) (by simp),
    readISO_toISOString t ht, v1, v2, v3, v4, v5, v6, v7, v8, instantOf_fieldsOf t,
    getLast_toISOString t, fun hy => length_toISOString t hy⟩

/-- C7: when the script runs twice in sequence, the second run in the heap the
first one left, with clock readings `t1 ≤ t2` within the years 0000 to 9999 and
any inputs on which it returns, the Timestamp of the second output record is
greater than or equal to that of the first in lexicographic order, strictly
greater when `t1 < t2`, and the two are equal only if `t1 = t2`. -/
theorem timestamp_monotone (t1 t2 : Int) (h12 : t1 ≤ t2)
    (y1 : InFourDigitYears t1) (y2 : InFourDigitYears t2)
    (msg1 metadata1 msgType1 msg2 metadata2 msgType2 : JSValue) (h : Heap)
    (hu1 : msg1 ≠ .undefined) (hn1 : msg1 ≠ .null)
    (hu2 : msg2 ≠ .undefined) (hn2 : msg2 ≠ .null) :
    ∃ w1 h1 s1 s2, script t1 msg1 metadata1 msgType1 h = .ok (w1, h1) ∧
      outputField (.ok (w1, h1)) "Timestamp" = some (.string s1) ∧
      outputField (script t2 msg2 metadata2 msgType2 h1) "Timestamp" = some (.string s2) ∧
      s1 ≤ s2 ∧ (t1 < t2 → s1 < s2) ∧ (s1 = s2 → t1 = t2) := by
  obtain ⟨v1, v2, v3, v4, he, -⟩ := script_eq t1 msg1 metadata1 msgType1 h hu1 hn1
  have e1 := outputField_timestamp t1 msg1 metadata1 msgType1 h hu1 hn1
  rw [he] at e1
  refine ⟨_, _, toISOString t1, toISOString t2, he, e1,
    outputField_timestamp t2 msg2 metadata2 msgType2 _ hu2 hn2, ?_, ?_, ?_⟩
  · rcases lt_or_eq_of_le h12 with hlt | heq
    · exact le_of_lt (toISOString_lt t1 t2 hlt y1 y2)
    · rw [heq]
  · intro hlt
    exact toISOString_lt t1 t2 hlt y1 y2
  · intro hs
    rcases lt_or_eq_of_le h12 with hlt | heq
    · exact absurd hs (ne_of_lt (toISOString_lt t1 t2 hlt y1 y2))
    · exact heq

/-! ## The theorems at concrete inputs -/

theorem script_copies_fields_witness :
    (0 < exampleHeap.length) ∧
    (∃ w h' p,
      script 1730764800123 (.object 0) (.object 1) (.string "reading") exampleHeap
        = .ok (w, h') ∧
      field h' w "msg" = some p ∧
      ∀ key ∈ copiedFields, ∀ v,
        field exampleHeap (.object 0) key = some v → field h' p key = some v) ∧
    outputField (script 1730764800123 (.object 0) (.object 1) (.string "reading") exampleHeap)
      "machine_id" = some (.string "M-12") ∧
    outputField (script 1730764800123 (.object 0) (.object 1) (.string "reading") exampleHeap)
      "total_Count" = some (.number ⟨0x4045000000000000⟩) ∧
    outputField (script 1730764800123 (.object 0) (.object 1) (.string "reading") exampleHeap)
      "batch" = some (.string "B7") ∧
    outputField (script 1730764800123 (.object 0) (.object 1) (.string "reading") exampleHeap)
      "Flavor" = some (.string "vanilla") ∧
    outputField (script 1730764800123 (.object 0) .undefined .undefined sparseHeap)
      "total_Count" = some (.string "42") :=
  ⟨by decide,
   script_copies_fields 1730764800123 0 (.object 1) (.string "reading") exampleHeap (by decide),
   by decide, by decide, by decide, by decide, by decide⟩

theorem script_wrapper_passthrough_witness :
    ∃ w h', script 0 (.object 0) .undefined (.object 1) exampleHeap = .ok (w, h') ∧
      fieldNames h' w = some ["msg", "metadata", "msgType"] ∧
      field h' w "metadata" = some .undefined ∧
      field h' w "msgType" = some (.object 1) ∧
      ∀ b, b < exampleHeap.length → h'[b]? = exampleHeap[b]? :=
  script_wrapper_passthrough 0 0 .undefined (.object 1) exampleHeap

theorem script_record_keys_witness :
    ∃ w h' p, script 0 (.object 0) .undefined .undefined sparseHeap = .ok (w, h') ∧
      field h' w "msg" = some p ∧
      fieldNames h' p = some ["machine_id", "total_Count", "batch", "Flavor", "Timestamp"] :=
  script_record_keys 0 0 .undefined .undefined sparseHeap

theorem script_missing_fields_witness :
    (0 < sparseHeap.length) ∧
    (∃ w h' p, script 0 (.object 0) .undefined .undefined sparseHeap = .ok (w, h') ∧
      field h' w "msg" = some p ∧
      ∀ key ∈ copiedFields,
        (field sparseHeap (.object 0) key = none → field h' p key = some .undefined) ∧
        (∀ v, field sparseHeap (.object 0) key = some v → field h' p key = some v)) ∧
    field sparseHeap (.object 0) "batch" = none ∧
    outputField (script 0 (.object 0) .undefined .undefined sparseHeap) "batch"
      = some .undefined ∧
    outputField (script 0 (.object 0) .undefined .undefined sparseHeap) "machine_id"
      = some (.string "M-12") :=
  ⟨by decide, script_missing_fields 0 0 .undefined .undefined sparseHeap (by decide),
   by decide, by decide, by decide⟩

theorem timestamp_from_clock_only_witness :
    ((JSValue.object 0 ≠ .undefined ∧ JSValue.object 0 ≠ .null) ∧
      (JSValue.boolean true ≠ .undefined ∧ JSValue.boolean true ≠ .null)) ∧
    (outputField (script 951782400000 (.object 0) .undefined .undefined sparseHeap) "Timestamp"
        = some (.string (toISOString 951782400000)) ∧
     outputField (script 951782400000 (.boolean true) (.object 1) (.string "reading")
        exampleHeap) "Timestamp" = some (.string (toISOString 951782400000))) ∧
    toISOString 951782400000 = "2000-02-29T00:00:00.000Z" :=
  ⟨⟨⟨by decide, by decide⟩, ⟨by decide, by decide⟩⟩,
   timestamp_from_clock_only 951782400000 (.object 0) .undefined .undefined sparseHeap
     (.boolean true) (.object 1) (.string "reading") exampleHeap
     (by decide) (by decide) (by decide) (by decide),
   by decide⟩

theorem timestamp_wellFormed_witness :
    IsTimeValue 8640000000000000 ∧
    (∃ s f, outputField (script 8640000000000000 (.object 0) (.object 1) (.string "reading")
          exampleHeap) "Timestamp" = some (.string s) ∧
      readISO s = some f ∧
      1 ≤ f.month ∧ f.month ≤ 12 ∧ 1 ≤ f.day ∧ f.day ≤ daysInMonth f.year f.month ∧
      f.hour ≤ 23 ∧ f.minute ≤ 59 ∧ f.second ≤ 59 ∧
      (f.millisecond : Int) = 8640000000000000 % 1000 ∧
      instantOf f = 8640000000000000 ∧
      s.data.getLast? = some 'Z' ∧
      (0 ≤ f.year ∧ f.year ≤ 9999 → s.length = 24)) ∧
    toISOString 8640000000000000 = "+275760-09-13T00:00:00.000Z" :=
  ⟨by decide,
   timestamp_wellFormed 8640000000000000 (by decide) 0 (.object 1) (.string "reading")
     exampleHeap,
   by decide⟩

theorem timestamp_monotone_witness :
    ((1730764800123 : Int) ≤ 1730764800124 ∧
      InFourDigitYears 1730764800123 ∧ InFourDigitYears 1730764800124 ∧
      JSValue.object 0 ≠ .undefined ∧ JSValue.object 0 ≠ .null) ∧
    (∃ w1 h1 s1 s2,
      script 1730764800123 (.object 0) (.object 1) (.string "reading") exampleHeap
        = .ok (w1, h1) ∧
      outputField (.ok (w1, h1)) "Timestamp" = some (.string s1) ∧
      outputField (script 1730764800124 (.object 0) (.object 1) (.string "reading") h1)
        "Timestamp" = some (.string s2) ∧
      s1 ≤ s2 ∧ ((1730764800123 : Int) < 1730764800124 → s1 < s2) ∧
      (s1 = s2 → (1730764800123 : Int) = 1730764800124)) :=
  ⟨⟨by decide, by decide, by decide, by decide, by decide⟩,
   timestamp_monotone 1730764800123 1730764800124 (by decide) (by decide) (by decide)
     (.object 0) (.object 1) (.string "reading") (.object 0) (.object 1) (.string "reading")
     exampleHeap (by decide) (by decide) (by decide) (by decide)⟩

theorem script_frame_witness :
    (0 < exampleHeap.length) ∧
    (∃ w h' p,
      script 0 (.object 0) (.object 1) (.string "reading") exampleHeap = .ok (w, h') ∧
      field h' w "msg" = some (.object p) ∧
      (∃ ext, h' = exampleHeap ++ ext) ∧
      (∀ b, b < exampleHeap.length → h'[b]? = exampleHeap[b]?) ∧
      fieldNames h' (.object 0) = fieldNames exampleHeap (.object 0) ∧
      (∀ key, field h' (.object 0) key = field exampleHeap (.object 0) key) ∧
      exampleHeap.length ≤ p ∧ p ≠ 0 ∧
      ∀ f : JSObject → JSObject, (h'.modify f p)[0]? = exampleHeap[0]?) :=
  ⟨by decide, script_frame 0 0 (.object 1) (.string "reading") exampleHeap (by decide)⟩

theorem script_raises_iff_witness :
    ((script 0 .null (.object 1) (.string "reading") exampleHeap = .error .TypeError ↔
        (JSValue.null = .null ∨ JSValue.null = .undefined)) ∧
      ((∃ w h', script 0 .null (.object 1) (.string "reading") exampleHeap = .ok (w, h')) ↔
        ¬ (JSValue.null = .null ∨ JSValue.null = .undefined)) ∧
      (isPrimitive .null = true →
        ∀ key ∈ copiedFields,
          outputField (script 0 .null (.object 1) (.string "reading") exampleHeap) key
            = some .undefined)) ∧
    script 0 .undefined (.object 1) (.string "reading") exampleHeap = .error .TypeError ∧
    outputField (script 0 (.number ⟨0x4045000000000000⟩) (.object 1) (.string "reading")
      exampleHeap) "batch" = some .undefined :=
  ⟨script_raises_iff 0 .null (.object 1) (.string "reading") exampleHeap, rfl, by decide⟩

end Honey
